import Mathlib

/-!
# Verification of the resumable S3 scan-and-aggregate engine (`s3_audit.py`)

This file gives a shallow embedding of the core of `s3_audit.py`:

* the Python string helpers the scan depends on (`os.path.dirname`,
  `os.path.splitext`, `str.split('/')`, `str.startswith`, `str.endswith`,
  `str.lower`, the `in` substring test);
* the aggregate store mutated by `scan_bucket`'s inner object loop
  (`folder_stats`, `recent_files_stats`, `extension_stats`,
  `all_known_paths`, `files_found_paths`, `total_files`);
* the per-object processing step (lines 421-469 of `s3_audit.py`);
* the paginated partition scan loop with its safety limit, checkpoint
  cadence, abort handling and terminal checkpoint decision
  (`scan_bucket`, `save_checkpoint`, `load_checkpoint`,
  `generate_excel_report`'s checkpoint cleanup).

Python `dict`s are embedded as association lists in insertion order,
Python `set`s as duplicate-free lists in insertion order, and the opaque
S3 continuation token of page `k` as the index `k+1` of the page it
points to.  Timestamps are embedded as a pair of the `.year` attribute
and a totally ordered epoch value used for the `>= cutoff_date` test.
-/

namespace S3Audit

/-! ## Embeddings of the Python string primitives -/

/-- Embedding of Python `str.startswith`: character-wise prefix test. -/
def pyStartsWith (s pre : String) : Bool :=
  pre.data.isPrefixOf s.data

/-- Embedding of Python `str.endswith`: character-wise suffix test. -/
def pyEndsWith (s suf : String) : Bool :=
  suf.data.isSuffixOf s.data

/-- Embedding of Python `str.lower` (ASCII case folding suffices here). -/
def pyLower (s : String) : String :=
  ⟨s.data.map Char.toLower⟩

/-- The characters of `p` up to and including the last `'/'`
(`p[:p.rfind('/') + 1]` in `posixpath.dirname`); `[]` when there is no
slash. -/
def upToLastSlash : List Char → List Char
  | [] => []
  | c :: rest =>
    if '/' ∈ rest then c :: upToLastSlash rest
    else if c = '/' then ['/'] else []

/-- `head.rstrip('/')` on a character list. -/
def rstripSlash (cs : List Char) : List Char :=
  (cs.reverse.dropWhile (fun c => c = '/')).reverse

/-- Embedding of `os.path.dirname` (POSIX): take everything up to the
last separator, then strip trailing separators unless the head consists
only of separators. -/
def pyDirname (s : String) : String :=
  let head := upToLastSlash s.data
  if head ≠ [] ∧ head.any (fun c => c ≠ '/') then ⟨rstripSlash head⟩ else ⟨head⟩

/-- Embedding of Python `str.split(sep)` for a one-character separator:
splits keeping empty fields, never returns the empty list. -/
def pySplit (sep : Char) : List Char → List (List Char)
  | [] => [[]]
  | c :: rest =>
    match pySplit sep rest with
    | [] => [[]]
    | h :: t => if c = sep then [] :: h :: t else (c :: h) :: t

/-- `str.split('/')` at the `String` level. -/
def pySplitS (s : String) : List String :=
  (pySplit '/' s.data).map (fun l => ⟨l⟩)

/-- The basename `p[p.rfind('/') + 1:]` of a key. -/
def afterLastSlash : List Char → List Char
  | [] => []
  | c :: rest =>
    if '/' ∈ rest then afterLastSlash rest
    else if c = '/' then rest else c :: rest

/-- The characters of `base` strictly before its last `'.'` (meaningful
only when `base` contains a dot). -/
def beforeLastDot : List Char → List Char
  | [] => []
  | c :: rest =>
    if '.' ∈ rest then c :: beforeLastDot rest else []

/-- The characters of `base` from its last `'.'` on. -/
def fromLastDot : List Char → List Char
  | [] => []
  | c :: rest =>
    if '.' ∈ rest then fromLastDot rest
    else if c = '.' then c :: rest else []

/-- Embedding of the extension component of `os.path.splitext`: the part
of the basename from its last dot on, unless every character before that
dot is itself a dot (leading-dot files have no extension). -/
def pyExt (s : String) : String :=
  let base := afterLastSlash s.data
  if '.' ∈ base then
    if (beforeLastDot base).any (fun c => c ≠ '.') then ⟨fromLastDot base⟩ else ""
  else ""

/-- Embedding of Python's `sub in s` substring test. -/
def hasSub (sub : List Char) : List Char → Bool
  | [] => sub.isEmpty
  | c :: rest => sub.isPrefixOf (c :: rest) || hasSub sub rest

/-- `sub in s` at the `String` level. -/
def strIn (sub s : String) : Bool :=
  hasSub sub.data s.data

/-! ## Association lists (Python `defaultdict`) and sets -/

/-- Update the first binding of `k` in an association list with `g`,
or append `(k, g d)` when absent — the effect of `m[k] = g(m.get(k, d))`
on an insertion-ordered Python dict, and in particular of
`defaultdict` increments. -/
def updA [DecidableEq κ] (m : List (κ × β)) (k : κ) (d : β) (g : β → β) :
    List (κ × β) :=
  match m with
  | [] => [(k, g d)]
  | (k', v) :: rest =>
    if k' = k then (k', g v) :: rest else (k', v) :: updA rest k d g

/-- Lookup of the first binding of `k`. -/
def lookupA [DecidableEq κ] (m : List (κ × β)) (k : κ) : Option β :=
  match m with
  | [] => none
  | (k', v) :: rest => if k' = k then some v else lookupA rest k

/-- Python `set.add` on a duplicate-free list in insertion order. -/
def setInsert [DecidableEq α] (l : List α) (x : α) : List α :=
  if x ∈ l then l else l ++ [x]

/-! ## Data model -/

/-- An S3 object record as consumed by the scan loop: the key, the
`.year` attribute of `LastModified`, and an epoch value embedding the
order used by the `last_modified >= cutoff_date` comparison. -/
structure S3Obj where
  key : String
  year : Int
  mtime : Int
deriving DecidableEq

/-- The module-level configuration surface consumed by the core:
`IGNORED_PREFIX`, `MAX_REQUESTS_SAFETY` (0 = unlimited) and the
`cutoff_date` fixed once per run. -/
structure ScanConfig where
  ignoredPref : String
  maxReq : Nat
  cutoff : Int
deriving DecidableEq

/-- The aggregate store of `scan_bucket`: exactly the fields bundled
into a checkpoint record by `save_checkpoint`. -/
structure AggState where
  folder_stats : List (String × List (Int × Nat))
  recent_files_stats : List (String × Nat)
  extension_stats : List (String × List (String × Nat))
  all_known_paths : List String
  files_found_paths : List String
  total_files : Nat
deriving DecidableEq

/-- The freshly initialised aggregate store (lines 369-375). -/
def emptyAgg : AggState :=
  ⟨[], [], [], [], [], 0⟩

/-- `folder_path = os.path.dirname(key)` with the root sentinel:
`if not folder_path: folder_path = "Raiz"`. -/
def folderOf (key : String) : String :=
  let d := pyDirname key
  if d = "" then "Raiz" else d

/-- The ancestor-chain builder of lines 438-443: walk the split folder
parts left to right, skip parts equal to `"Raiz"`, and emit each
accumulated `'/'`-terminated build. -/
def chainAdds (parts : List String) (acc : String) : List String :=
  match parts with
  | [] => []
  | p :: rest =>
    if p = "Raiz" then chainAdds rest acc
    else (acc ++ p ++ "/") :: chainAdds rest (acc ++ p ++ "/")

/-- The per-object step of `scan_bucket` (lines 421-469), acting on the
aggregate store and the run-local `ignored_files_count`. -/
def processObject (cfg : ScanConfig) (st : AggState) (ign : Nat) (o : S3Obj) :
    AggState × Nat :=
  if pyStartsWith o.key cfg.ignoredPref then (st, ign + 1)
  else if pyEndsWith o.key "/" then
    ({ st with all_known_paths := setInsert st.all_known_paths o.key }, ign)
  else
    let folder := folderOf o.key
    let files' := setInsert st.files_found_paths folder
    let known' := (chainAdds (pySplitS folder) "").foldl setInsert st.all_known_paths
    let fs' := updA st.folder_stats folder []
      (fun inner => updA inner o.year 0 (fun v => v + 1))
    let recs' :=
      if cfg.cutoff ≤ o.mtime then
        updA st.recent_files_stats folder 0 (fun v => v + 1)
      else st.recent_files_stats
    let ext := pyExt o.key
    let extKey := if ext = "" then "(sem extensão)" else pyLower ext
    let es' := updA st.extension_stats folder []
      (fun inner => updA inner extKey 0 (fun v => v + 1))
    ({ folder_stats := fs', recent_files_stats := recs', extension_stats := es',
       all_known_paths := known', files_found_paths := files',
       total_files := st.total_files + 1 }, ign)

/-- Feeding a list of object records through the per-object step — the
`for obj in page['Contents']` loop. -/
def runObjs (cfg : ScanConfig) (p : AggState × Nat) (objs : List S3Obj) :
    AggState × Nat :=
  objs.foldl (fun q o => processObject cfg q.1 q.2 o) p

/-! ## The scan loop state machine

A partition of the namespace is a list of pages; a page is its
`Contents` list (an empty list embeds a page without a `Contents` key).
Page `k` of a partition carries a `NextContinuationToken` exactly when a
page `k+1` exists, and that token is embedded as the index `k+1`;
passing it as `StartingToken` resumes the listing at page `k+1`. -/

/-- The data written by one `save_checkpoint` call: the aggregate-store
snapshot and folder index pickled to `checkpoint_stats.pkl`, plus the
continuation token file (`none` when the token file is removed). -/
structure Checkpoint where
  agg : AggState
  folderIdx : Nat
  token : Option Nat
deriving DecidableEq

/-- The mutable locals of `scan_bucket`'s attack loop: the aggregate
store, `ignored_files_count`, `requests_made`, `pages_since_save`, the
`current_next_token` local (set only when a page with contents is
processed), the checkpoint currently on durable storage, and the list of
all checkpoints written during the run, in order. -/
structure LoopSt where
  agg : AggState
  ignored : Nat
  requests : Nat
  pagesSinceSave : Nat
  cnt : Option Nat
  store : Option Checkpoint
  saves : List Checkpoint
deriving DecidableEq

/-- `save_checkpoint(...)`: overwrite the durable record and log it. -/
def saveCp (st : LoopSt) (token : Option Nat) (idx : Nat) : LoopSt :=
  let cp : Checkpoint := ⟨st.agg, idx, token⟩
  { st with store := some cp, saves := st.saves ++ [cp] }

/-- The page loop over one partition (lines 405-472), returning the
final locals and whether the safety limit raised `StopIteration`.
`i` is the partition index, `pageIdx` the index of the first page of
`pages` within the partition. -/
def runPages (cfg : ScanConfig) (i : Nat) :
    Nat → List (List S3Obj) → LoopSt → LoopSt × Bool
  | _, [], st => (st, false)
  | pageIdx, pg :: rest, st =>
    let st1 := { st with requests := st.requests + 1,
                         pagesSinceSave := st.pagesSinceSave + 1 }
    let st2 :=
      if rest ≠ [] ∧ 500 ≤ st1.pagesSinceSave then
        { saveCp st1 (some (pageIdx + 1)) i with pagesSinceSave := 0 }
      else st1
    if 0 < cfg.maxReq ∧ cfg.maxReq < st2.requests then (st2, true)
    else if pg.isEmpty then runPages cfg i (pageIdx + 1) rest st2
    else
      let (agg', ign') := runObjs cfg (st2.agg, st2.ignored) pg
      let st3 := { st2 with agg := agg', ignored := ign',
                            cnt := if rest.isEmpty then none
                                   else some (pageIdx + 1) }
      runPages cfg i (pageIdx + 1) rest st3

/-- The partition loop (lines 386-474): scan each remaining partition,
write a token-less boundary checkpoint pointing at the next partition
after each one, and stop with the index of the partition in which the
safety limit fired, if any.  The `StartingToken` is applied only to the
first scanned partition. -/
def runParts (cfg : ScanConfig) :
    List (List (List S3Obj)) → Nat → Option Nat → LoopSt →
    LoopSt × Option Nat
  | [], _, _, st => (st, none)
  | pages :: rest, i, tok, st =>
    let startPage := tok.getD 0
    let st0 := { st with pagesSinceSave := 0 }
    let (st1, aborted) := runPages cfg i startPage (pages.drop startPage) st0
    if aborted then (st1, some i)
    else runParts cfg rest (i + 1) none (saveCp st1 none (i + 1))

/-- The resume decision of lines 360-376: the loaded state seeds the run
only when the loaded `stats` dict is truthy (non-empty); otherwise every
aggregate is freshly initialised, the token is dropped and the partition
index restarts at 0. -/
def resumeInit (loaded : Option Checkpoint) : AggState × Option Nat × Nat :=
  match loaded with
  | some cp =>
    if cp.agg.folder_stats ≠ [] then (cp.agg, cp.token, cp.folderIdx)
    else (emptyAgg, none, 0)
  | none => (emptyAgg, none, 0)

/-- The terminal statuses a run can report (section 6 of the report):
success, user cancellation, the safety limit, or an error message. -/
inductive TerminalStatus
  | success
  | cancelled
  | limitReached (n : Nat)
  | errorMsg (e : String)
deriving DecidableEq

/-- `f"Interrompido (Limite: {MAX_REQUESTS_SAFETY})"`. -/
def limitStatus (n : Nat) : String :=
  "Interrompido (Limite: " ++ Nat.repr n ++ ")"

/-- The status strings produced by `scan_bucket`. -/
def statusMsg : TerminalStatus → String
  | .success => "Concluído com Sucesso"
  | .cancelled => "Cancelado pelo Usuário"
  | .limitReached n => limitStatus n
  | .errorMsg e => "Erro: " ++ e

/-- The checkpoint decision at the tail of `generate_excel_report`
(lines 310-312): the durable checkpoint is removed exactly when the
status message contains `"Sucesso"` as a substring. -/
def cleanupCheckpoint (status : String) (store : Option Checkpoint) :
    Option Checkpoint :=
  if strIn "Sucesso" status then none else store

/-- The outcome of a whole run: the final locals, the terminal status
message, and what remains on durable storage after the report's
checkpoint decision. -/
structure RunResult where
  final : LoopSt
  status : String
  storeAfterReport : Option Checkpoint
deriving DecidableEq

/-- A complete `scan_bucket` run over a fixed partition list, starting
from the result of `load_checkpoint` (`none` for a cold start).  Only
the internal `StopIteration` abort (safety limit) is modelled; external
interrupts and transport errors are events outside the program text. -/
def scanRun (cfg : ScanConfig) (parts : List (List (List S3Obj)))
    (loaded : Option Checkpoint) : RunResult :=
  let init := resumeInit loaded
  let st0 : LoopSt :=
    { agg := init.1, ignored := 0, requests := 0, pagesSinceSave := 0,
      cnt := none, store := loaded, saves := [] }
  let r := runParts cfg (parts.drop init.2.2) init.2.2 init.2.1 st0
  match r.2 with
  | none =>
    let status := "Concluído com Sucesso"
    ⟨r.1, status, cleanupCheckpoint status r.1.store⟩
  | some i =>
    let status := limitStatus cfg.maxReq
    let st2 := saveCp r.1 r.1.cnt i
    ⟨st2, status, cleanupCheckpoint status st2.store⟩

/-! ## The checkpoint loader (`load_checkpoint`, lines 129-166) -/

/-- The top-level pickled record as found on disk: each key of
`data_to_save` may be present or absent, so that checkpoints written by
older schema versions (e.g. without `ext_stats`) are representable. -/
structure RawRecord where
  stats : Option (List (String × List (Int × Nat)))
  recent_stats : Option (List (String × Nat))
  ext_stats : Option (List (String × List (String × Nat)))
  all_paths : Option (List String)
  file_paths : Option (List String)
  total : Option Nat
  folder_idx : Option Nat
deriving DecidableEq

/-- The state of `checkpoint_stats.pkl` on disk: absent, unreadable (a
corrupt pickle raises inside the `try`), or a readable record. -/
inductive StoredState
  | absent
  | corrupt
  | record (r : RawRecord)
deriving DecidableEq

/-- The body of `load_checkpoint`'s `try` block: `.get` calls supply
defaults for `folder_idx`, `recent_stats` and `ext_stats`, while plain
subscripts on `stats`, `all_paths`, `file_paths` and `total` raise
`KeyError` when absent. -/
def loadCheckpointBody (r : RawRecord) (tok : Option Nat) :
    Except String Checkpoint := do
  let idx := r.folder_idx.getD 0
  let recents := r.recent_stats.getD []
  let exts := r.ext_stats.getD []
  let stats ← match r.stats with
    | some s => pure s
    | none => throw "KeyError: stats"
  let allPaths ← match r.all_paths with
    | some p => pure p
    | none => throw "KeyError: all_paths"
  let filePaths ← match r.file_paths with
    | some p => pure p
    | none => throw "KeyError: file_paths"
  let total ← match r.total with
    | some t => pure t
    | none => throw "KeyError: total"
  pure ⟨⟨stats, recents, exts, allPaths, filePaths, total⟩, idx, tok⟩

/-- `load_checkpoint`: no file means a cold start; a corrupt pickle or a
record raising inside the `try` is caught and downgraded to a cold
start; otherwise the loaded state and token are returned. -/
def loadCheckpoint (stored : StoredState) (tok : Option Nat) :
    Option Checkpoint :=
  match stored with
  | .absent => none
  | .corrupt => none
  | .record r =>
    match loadCheckpointBody r tok with
    | .ok cp => some cp
    | .error _ => none

/-! ## Measures and predicates used by the claims -/

/-- Total of all counts in a one-level counter dict. -/
def natTotal (l : List (κ × Nat)) : Nat :=
  (l.map (fun p => p.2)).sum

/-- The sum of `folder_stats[f]` over all of its year buckets (0 when
the folder has no entry). -/
def yearTotal (stats : List (String × List (Int × Nat))) (f : String) :
    Nat :=
  natTotal ((lookupA stats f).getD [])

/-- The objects the year counter is supposed to count for folder `f`:
non-excluded, non-marker, and lying directly in `f`. -/
def qualifies (cfg : ScanConfig) (f : String) (o : S3Obj) : Bool :=
  !pyStartsWith o.key cfg.ignoredPref && !pyEndsWith o.key "/" &&
    (folderOf o.key == f)

/-- Number of non-marker, non-excluded objects of a stream lying
directly in folder `f`. -/
def countDirect (cfg : ScanConfig) (objs : List S3Obj) (f : String) : Nat :=
  List.countP (qualifies cfg f) objs

/-- Join character-chunks, terminating each with `'/'`. -/
def joinSlashC : List (List Char) → List Char
  | [] => []
  | p :: rest => p ++ '/' :: joinSlashC rest

/-- Join string parts, terminating each with `"/"`. -/
def joinSlashS : List String → String
  | [] => ""
  | p :: rest => p ++ "/" ++ joinSlashS rest

/-- The slash-normalised containment that actually relates
`files_found_paths` (folders without trailing slash, `"Raiz"` for the
root) to `all_known_paths` (`'/'`-terminated chain entries): every found
folder either has a `"Raiz"` component (which the chain builder skips)
or its `'/'`-terminated form is a known path. -/
def filesCovered (st : AggState) : Prop :=
  ∀ f ∈ st.files_found_paths,
    "Raiz" ∈ pySplitS f ∨ f ++ "/" ∈ st.all_known_paths

/-! ## Concrete scenario inputs -/

/-- A configuration whose exclusion prefix matches none of the scenario
keys, with no safety limit and a recency cutoff in the far future. -/
def cfgPlain : ScanConfig := ⟨"IGNORADO/", 0, 1000⟩

/-- The object stream of the spec's aggregation scenario: last-modified
years matching the path segments, timestamps far older than the
cutoff. -/
def objs9 : List S3Obj :=
  [⟨"a/2021/f1.pdf", 2021, 10⟩, ⟨"a/2021/f2.pdf", 2021, 10⟩,
   ⟨"a/2022/f3.txt", 2022, 10⟩, ⟨"b/", 2024, 10⟩]

/-- The exclusion-correctness configuration: excluded prefix `"A/B/"`. -/
def cfgExcl : ScanConfig := ⟨"A/B/", 0, 1000⟩

def objExcl : S3Obj := ⟨"A/B/x.txt", 2020, 0⟩

/-- The sibling object; its timestamp lies inside the recency window so
every counter is exercised. -/
def objSib : S3Obj := ⟨"A/C/y.txt", 2020, 2000⟩

/-- Safety ceiling of one request. -/
def cfgC5 : ScanConfig := ⟨"IGNORADO/", 1, 1000⟩

/-- One partition requiring three pages, one object each. -/
def nsC5 : List (List (List S3Obj)) :=
  [[[⟨"a/p1.bin", 2020, 0⟩], [⟨"a/p2.bin", 2020, 0⟩],
    [⟨"a/p3.bin", 2020, 0⟩]]]

/-- A checkpoint with non-empty aggregates, used to witness the cleanup
decision. -/
def cpDemo : Checkpoint :=
  ⟨⟨[("a", [(2020, 1)])], [], [], ["a/"], ["a"], 1⟩, 0, none⟩

/-! ## The concrete namespace exhibiting the cadence-checkpoint bug -/

/-- Exclusion prefix matching nothing, no safety limit, cutoff far in
the future. -/
def cfgC1 : ScanConfig := ⟨"IGNORADO/", 0, 1000⟩

def oA : S3Obj := ⟨"a/x1.bin", 2020, 0⟩

def oB : S3Obj := ⟨"a/x2.bin", 2020, 0⟩

def oC : S3Obj := ⟨"a/x3.bin", 2020, 0⟩

/-- One partition of 501 pages: `oA` on page 0, then 498 pages without
contents, `oB` on page 499 (where the 500-page checkpoint cadence
fires), `oC` on page 500. -/
def pagesC1 : List (List S3Obj) :=
  [oA] :: (List.replicate 498 [] ++ [[oB], [oC]])

def nsC1 : List (List (List S3Obj)) := [pagesC1]

def aggOne : AggState :=
  ⟨[("a", [(2020, 1)])], [], [("a", [(".bin", 1)])], ["a/"], ["a"], 1⟩

def aggTwo : AggState :=
  ⟨[("a", [(2020, 2)])], [], [("a", [(".bin", 2)])], ["a/"], ["a"], 2⟩

def aggThree : AggState :=
  ⟨[("a", [(2020, 3)])], [], [("a", [(".bin", 3)])], ["a/"], ["a"], 3⟩

/-- The checkpoint the cadence writes at page 499: aggregates from pages
0-498 only (`oB` not yet counted), but a cursor already pointing at page
500. -/
def cpCadence : Checkpoint := ⟨aggOne, 0, some 500⟩

def cpBoundaryFull : Checkpoint := ⟨aggThree, 1, none⟩

def cpBoundaryResume : Checkpoint := ⟨aggTwo, 1, none⟩

/-! ## Stepping lemmas for the page loop -/

theorem runPages_nil (cfg : ScanConfig) (i k : Nat) (st : LoopSt) :
    runPages cfg i k [] st = (st, false) := rfl

/-- One page-loop step on a page with contents when neither the
checkpoint cadence nor the safety limit fires. -/
theorem runPages_step_proc (cfg : ScanConfig) (i k : Nat) (pg : List S3Obj)
    (rest : List (List S3Obj)) (st st' : LoopSt)
    (hsave : ¬ (rest ≠ [] ∧ 500 ≤ st.pagesSinceSave + 1))
    (hlim : ¬ (0 < cfg.maxReq ∧ cfg.maxReq < st.requests + 1))
    (hpg : pg.isEmpty = false)
    (hst : st' =
      { st with agg := (runObjs cfg (st.agg, st.ignored) pg).1,
                ignored := (runObjs cfg (st.agg, st.ignored) pg).2,
                requests := st.requests + 1,
                pagesSinceSave := st.pagesSinceSave + 1,
                cnt := if rest.isEmpty then none else some (k + 1) }) :
    runPages cfg i k (pg :: rest) st = runPages cfg i (k + 1) rest st' := by
  subst hst
  simp only [runPages, if_neg hsave, if_neg hlim, hpg, Bool.false_eq_true,
    if_false]

/-- One page-loop step on a page with contents when the checkpoint
cadence fires (a further page exists and 500 pages have accumulated):
the checkpoint is written before the page's objects are aggregated, yet
its token already points past the page. -/
theorem runPages_step_save (cfg : ScanConfig) (i k : Nat) (pg : List S3Obj)
    (rest : List (List S3Obj)) (st st' : LoopSt)
    (hrest : rest ≠ []) (hpss : 500 ≤ st.pagesSinceSave + 1)
    (hlim : ¬ (0 < cfg.maxReq ∧ cfg.maxReq < st.requests + 1))
    (hpg : pg.isEmpty = false)
    (hst : st' =
      { st with agg := (runObjs cfg (st.agg, st.ignored) pg).1,
                ignored := (runObjs cfg (st.agg, st.ignored) pg).2,
                requests := st.requests + 1,
                pagesSinceSave := 0,
                cnt := if rest.isEmpty then none else some (k + 1),
                store := some ⟨st.agg, i, some (k + 1)⟩,
                saves := st.saves ++ [⟨st.agg, i, some (k + 1)⟩] }) :
    runPages cfg i k (pg :: rest) st = runPages cfg i (k + 1) rest st' := by
  subst hst
  simp only [runPages, saveCp, if_pos (And.intro hrest hpss), if_neg hlim,
    hpg, Bool.false_eq_true, if_false]

/-- Consecutive pages without a `Contents` key only tick the request and
cadence counters, provided the cadence threshold is not reached and the
safety limit is disabled. -/
theorem runPages_skip_empties (cfg : ScanConfig) (hreq : cfg.maxReq = 0)
    (i : Nat) :
    ∀ (n pageIdx : Nat) (rest : List (List S3Obj)) (st : LoopSt),
      rest ≠ [] → st.pagesSinceSave + n < 500 →
      runPages cfg i pageIdx (List.replicate n [] ++ rest) st =
        runPages cfg i (pageIdx + n) rest
          { st with requests := st.requests + n,
                    pagesSinceSave := st.pagesSinceSave + n } := by
  intro n
  induction n with
  | zero =>
    intro pageIdx rest st _ _
    cases st
    simp
  | succ n ih =>
    intro pageIdx rest st hrest hlt
    obtain ⟨sagg, sign, sreq, spss, scnt, sstore, ssaves⟩ := st
    simp only at hlt ⊢
    have hsave : ¬ (List.replicate n ([] : List S3Obj) ++ rest ≠ [] ∧
        500 ≤ spss + 1) := by
      intro h
      omega
    have hlim : ¬ (0 < cfg.maxReq ∧ cfg.maxReq < sreq + 1) := by
      intro h
      rw [hreq] at h
      exact absurd h.1 (by omega)
    rw [List.replicate_succ, List.cons_append]
    rw [show runPages cfg i pageIdx
        ([] :: (List.replicate n [] ++ rest))
        ⟨sagg, sign, sreq, spss, scnt, sstore, ssaves⟩ =
        runPages cfg i (pageIdx + 1) (List.replicate n [] ++ rest)
          ⟨sagg, sign, sreq + 1, spss + 1, scnt, sstore, ssaves⟩ from by
      simp only [runPages, if_neg hsave, if_neg hlim, List.isEmpty_nil,
        if_true]]
    rw [ih (pageIdx + 1) rest
      ⟨sagg, sign, sreq + 1, spss + 1, scnt, sstore, ssaves⟩ hrest
      (by show spss + 1 + n < 500; omega)]
    have e1 : pageIdx + 1 + n = pageIdx + (n + 1) := by omega
    have e2 : sreq + 1 + n = sreq + (n + 1) := by omega
    have e3 : spss + 1 + n = spss + (n + 1) := by omega
    simp only [e1, e2, e3]

theorem drop_replicate_append (x : α) :
    ∀ (n m : Nat) (l : List α),
      (List.replicate n x ++ l).drop (n + m) = l.drop m := by
  intro n
  induction n with
  | zero => intro m l; simp
  | succ n ih =>
    intro m l
    rw [List.replicate_succ, List.cons_append,
      show n + 1 + m = (n + m) + 1 from by omega, List.drop_succ_cons, ih]

/-- A run of a single partition that finishes without hitting the
limit: it ends with the token-less boundary checkpoint. -/
theorem runParts_one (cfg : ScanConfig) (pages : List (List S3Obj))
    (i : Nat) (tok : Option Nat) (st st1 : LoopSt)
    (h : runPages cfg i (tok.getD 0) (pages.drop (tok.getD 0))
          { st with pagesSinceSave := 0 } = (st1, false)) :
    runParts cfg [pages] i tok st = (saveCp st1 none (i + 1), none) := by
  simp only [runParts, h, Bool.false_eq_true, if_false]

/-- A run in which the partition loop finishes without an internal
abort reports success and applies the checkpoint cleanup. -/
theorem scanRun_success (cfg : ScanConfig)
    (parts : List (List (List S3Obj))) (loaded : Option Checkpoint)
    (st1 : LoopSt)
    (h : runParts cfg (parts.drop (resumeInit loaded).2.2)
          (resumeInit loaded).2.2 (resumeInit loaded).2.1
          ⟨(resumeInit loaded).1, 0, 0, 0, none, loaded, []⟩ = (st1, none)) :
    scanRun cfg parts loaded =
      ⟨st1, "Concluído com Sucesso",
       cleanupCheckpoint "Concluído com Sucesso" st1.store⟩ := by
  simp only [scanRun, h]

theorem pagesC1_drop_500 : pagesC1.drop 500 = [[oC]] := by
  rw [show pagesC1 = [oA] :: (List.replicate 498 [] ++ [[oB], [oC]]) from
    rfl]
  rw [show (500 : Nat) = 499 + 1 from rfl, List.drop_succ_cons,
    show (499 : Nat) = 498 + 1 from rfl, drop_replicate_append]
  rfl

theorem runPages_C1_full :
    runPages cfgC1 0 0 pagesC1 ⟨emptyAgg, 0, 0, 0, none, none, []⟩ =
      (⟨aggThree, 0, 501, 1, none, some cpCadence, [cpCadence]⟩, false) := by
  rw [show pagesC1 = [oA] :: (List.replicate 498 [] ++ [[oB], [oC]]) from
    rfl]
  rw [runPages_step_proc cfgC1 0 0 [oA] _ _
    ⟨aggOne, 0, 1, 1, some 1, none, []⟩
    (fun h => absurd h.2 (by decide)) (fun h => absurd h.1 (by decide))
    (by decide) (by decide)]
  rw [runPages_skip_empties cfgC1 rfl 0 498 (0 + 1) [[oB], [oC]]
    ⟨aggOne, 0, 1, 1, some 1, none, []⟩ (by decide) (by decide)]
  rw [runPages_step_save cfgC1 0 (0 + 1 + 498) [oB] [[oC]] _
    ⟨aggTwo, 0, 500, 0, some 500, some cpCadence, [cpCadence]⟩
    (by decide) (by decide) (fun h => absurd h.1 (by decide)) (by decide)
    (by decide)]
  rw [runPages_step_proc cfgC1 0 (0 + 1 + 498 + 1) [oC] [] _
    (⟨aggThree, 0, 501, 1, none, some cpCadence, [cpCadence]⟩)
    (fun h => absurd rfl h.1) (fun h => absurd h.1 (by decide))
    (by decide) (by decide)]
  rw [runPages_nil]

theorem runPages_C1_resume :
    runPages cfgC1 0 500 (pagesC1.drop 500)
      ⟨aggOne, 0, 0, 0, none, some cpCadence, []⟩ =
      (⟨aggTwo, 0, 1, 1, none, some cpCadence, []⟩, false) := by
  rw [pagesC1_drop_500]
  rw [runPages_step_proc cfgC1 0 500 [oC] [] _
    (⟨aggTwo, 0, 1, 1, none, some cpCadence, []⟩)
    (fun h => absurd rfl h.1) (fun h => absurd h.1 (by decide))
    (by decide) (by decide)]
  rw [runPages_nil]

theorem scanRun_C1_uninterrupted :
    scanRun cfgC1 nsC1 none =
      ⟨⟨aggThree, 0, 501, 1, none, some cpBoundaryFull,
        [cpCadence, cpBoundaryFull]⟩,
       "Concluído com Sucesso", none⟩ := by
  have hparts : runParts cfgC1 [pagesC1] 0 none
      ⟨emptyAgg, 0, 0, 0, none, none, []⟩ =
      (⟨aggThree, 0, 501, 1, none, some cpBoundaryFull,
        [cpCadence, cpBoundaryFull]⟩, none) := by
    have h := runParts_one cfgC1 pagesC1 0 none
      ⟨emptyAgg, 0, 0, 0, none, none, []⟩
      ⟨aggThree, 0, 501, 1, none, some cpCadence, [cpCadence]⟩
      runPages_C1_full
    rw [show saveCp
        ⟨aggThree, 0, 501, 1, none, some cpCadence, [cpCadence]⟩ none (0 + 1) =
        ⟨aggThree, 0, 501, 1, none, some cpBoundaryFull,
         [cpCadence, cpBoundaryFull]⟩ from by decide] at h
    exact h
  have h2 := scanRun_success cfgC1 nsC1 none
    ⟨aggThree, 0, 501, 1, none, some cpBoundaryFull,
     [cpCadence, cpBoundaryFull]⟩ hparts
  rw [show cleanupCheckpoint "Concluído com Sucesso"
      (LoopSt.store ⟨aggThree, 0, 501, 1, none, some cpBoundaryFull,
        [cpCadence, cpBoundaryFull]⟩) = none from by decide] at h2
  exact h2

theorem scanRun_C1_resumed :
    scanRun cfgC1 nsC1 (some cpCadence) =
      ⟨⟨aggTwo, 0, 1, 1, none, some cpBoundaryResume, [cpBoundaryResume]⟩,
       "Concluído com Sucesso", none⟩ := by
  have hparts : runParts cfgC1 [pagesC1] 0 (some 500)
      ⟨aggOne, 0, 0, 0, none, some cpCadence, []⟩ =
      (⟨aggTwo, 0, 1, 1, none, some cpBoundaryResume, [cpBoundaryResume]⟩,
       none) := by
    have h := runParts_one cfgC1 pagesC1 0 (some 500)
      ⟨aggOne, 0, 0, 0, none, some cpCadence, []⟩
      ⟨aggTwo, 0, 1, 1, none, some cpCadence, []⟩ runPages_C1_resume
    rw [show saveCp ⟨aggTwo, 0, 1, 1, none, some cpCadence, []⟩ none (0 + 1) =
        ⟨aggTwo, 0, 1, 1, none, some cpBoundaryResume, [cpBoundaryResume]⟩
        from by decide] at h
    exact h
  have h2 := scanRun_success cfgC1 nsC1 (some cpCadence)
    ⟨aggTwo, 0, 1, 1, none, some cpBoundaryResume, [cpBoundaryResume]⟩ hparts
  rw [show cleanupCheckpoint "Concluído com Sucesso"
      (LoopSt.store ⟨aggTwo, 0, 1, 1, none, some cpBoundaryResume,
        [cpBoundaryResume]⟩) = none from by decide] at h2
  exact h2

/-! ## Lemmas about the set and counter primitives -/

theorem mem_setInsert_iff [DecidableEq α] (l : List α) (x y : α) :
    y ∈ setInsert l x ↔ y ∈ l ∨ y = x := by
  unfold setInsert
  split
  · constructor
    · exact fun h => Or.inl h
    · rintro (h | rfl)
      · exact h
      · assumption
  · simp

theorem mem_setInsert_of_mem [DecidableEq α] {l : List α} {x y : α}
    (h : y ∈ l) : y ∈ setInsert l x :=
  (mem_setInsert_iff l x y).2 (Or.inl h)

theorem mem_foldl_setInsert_of_mem [DecidableEq α] (adds : List α) :
    ∀ (l : List α) (y : α), y ∈ l → y ∈ adds.foldl setInsert l := by
  induction adds with
  | nil => intro l y h; exact h
  | cons a rest ih =>
    intro l y h
    exact ih (setInsert l a) y (mem_setInsert_of_mem h)

theorem mem_foldl_setInsert_of_mem_adds [DecidableEq α] (adds : List α) :
    ∀ (l : List α) (y : α), y ∈ adds → y ∈ adds.foldl setInsert l := by
  induction adds with
  | nil => intro l y h; cases h
  | cons a rest ih =>
    intro l y h
    rcases List.mem_cons.1 h with rfl | h
    · exact mem_foldl_setInsert_of_mem rest (setInsert l y) y
        ((mem_setInsert_iff l y y).2 (Or.inr rfl))
    · exact ih (setInsert l a) y h

theorem lookupA_updA_self [DecidableEq κ] (k : κ) (d : β) (g : β → β) :
    ∀ m : List (κ × β),
      lookupA (updA m k d g) k = some (g ((lookupA m k).getD d)) := by
  intro m
  induction m with
  | nil => simp [updA, lookupA]
  | cons p rest ih =>
    obtain ⟨k', v⟩ := p
    by_cases h : k' = k
    · simp [updA, lookupA, h]
    · simp [updA, lookupA, h, ih]

theorem lookupA_updA_ne [DecidableEq κ] {k f : κ} (d : β) (g : β → β)
    (hne : f ≠ k) :
    ∀ m : List (κ × β), lookupA (updA m k d g) f = lookupA m f := by
  intro m
  induction m with
  | nil =>
    show (if k = f then some (g d) else none) = none
    rw [if_neg (fun h => hne h.symm)]
  | cons p rest ih =>
    obtain ⟨k', v⟩ := p
    by_cases h : k' = k
    · subst h
      simp [updA, lookupA, Ne.symm hne]
    · by_cases h2 : k' = f
      · subst h2
        simp [updA, lookupA, h, hne]
      · simp [updA, lookupA, h, h2, ih]

theorem natTotal_updA [DecidableEq κ] (k : κ) :
    ∀ m : List (κ × Nat),
      natTotal (updA m k 0 (fun v => v + 1)) = natTotal m + 1 := by
  intro m
  induction m with
  | nil => simp [updA, natTotal]
  | cons p rest ih =>
    obtain ⟨k', v⟩ := p
    by_cases h : k' = k
    · simp [updA, natTotal, h]
      omega
    · simp only [updA, natTotal, if_neg h, List.map_cons, List.sum_cons]
      have := ih
      simp only [natTotal] at this
      omega

/-! ## Lemmas about the split/join round trip and the ancestor chain -/

theorem pySplit_ne_nil (sep : Char) (cs : List Char) :
    pySplit sep cs ≠ [] := by
  cases cs with
  | nil => simp [pySplit]
  | cons c rest =>
    simp only [pySplit]
    cases pySplit sep rest with
    | nil => simp
    | cons h1 t => by_cases hc : c = sep <;> simp [hc]

theorem pySplitS_ne_nil (s : String) : pySplitS s ≠ [] := by
  unfold pySplitS
  intro h
  exact pySplit_ne_nil '/' s.data (List.map_eq_nil_iff.1 h)

theorem joinSlashC_pySplit (cs : List Char) :
    joinSlashC (pySplit '/' cs) = cs ++ ['/'] := by
  induction cs with
  | nil => simp [pySplit, joinSlashC]
  | cons c rest ih =>
    simp only [pySplit]
    rcases h : pySplit '/' rest with _ | ⟨h1, t⟩
    · exact absurd h (pySplit_ne_nil '/' rest)
    · rw [h] at ih
      by_cases hc : c = '/'

      · subst hc
        simp only [if_pos rfl, joinSlashC]
        simp [joinSlashC] at ih
        simp [ih]
      · simp only [if_neg hc, joinSlashC]
        simp only [joinSlashC] at ih
        simp [ih]

theorem string_mk_append (a b : List Char) :
    (⟨a⟩ : String) ++ (⟨b⟩ : String) = ⟨a ++ b⟩ := rfl

theorem joinSlashS_map_mk (ls : List (List Char)) :
    joinSlashS (ls.map (fun l => (⟨l⟩ : String))) = ⟨joinSlashC ls⟩ := by
  induction ls with
  | nil => rfl
  | cons p rest ih =>
    simp only [List.map_cons, joinSlashS, joinSlashC, ih]
    exact String.ext (by simp)

theorem joinSlashS_pySplitS (s : String) :
    joinSlashS (pySplitS s) = s ++ "/" := by
  unfold pySplitS
  rw [joinSlashS_map_mk, joinSlashC_pySplit]
  exact String.ext (by simp)

theorem chainAdds_last_mem :
    ∀ (parts : List String) (acc : String), "Raiz" ∉ parts → parts ≠ [] →
      (acc ++ joinSlashS parts) ∈ chainAdds parts acc := by
  intro parts
  induction parts with
  | nil => intro acc _ h; exact absurd rfl h
  | cons p rest ih =>
    intro acc hraiz _
    have hp : p ≠ "Raiz" := fun h => hraiz (h ▸ List.mem_cons_self p rest)
    simp only [chainAdds, if_neg hp, joinSlashS]
    cases rest with
    | nil =>
      simp only [joinSlashS, String.append_empty]
      rw [← String.append_assoc]
      exact List.mem_cons_self _ _
    | cons q rest' =>
      have hraiz' : "Raiz" ∉ q :: rest' :=
        fun h => hraiz (List.mem_cons_of_mem p h)
      rw [← String.append_assoc, ← String.append_assoc]
      exact List.mem_cons_of_mem _ (ih (acc ++ p ++ "/") hraiz' (by simp))

theorem chainAdds_elem_slash :
    ∀ (parts : List String) (acc p : String), p ∈ chainAdds parts acc →
      ∃ x, p = x ++ "/" := by
  intro parts
  induction parts with
  | nil => intro acc p h; cases h
  | cons q rest ih =>
    intro acc p h
    simp only [chainAdds] at h
    by_cases hq : q = "Raiz"
    · rw [if_pos hq] at h
      exact ih acc p h
    · rw [if_neg hq] at h
      rcases List.mem_cons.1 h with rfl | h
      · exact ⟨acc ++ q, rfl⟩
      · exact ih (acc ++ q ++ "/") p h

/-! ## Lemmas about the per-object step -/

theorem yearTotal_processObject (cfg : ScanConfig) (st : AggState)
    (ign : Nat) (o : S3Obj) (f : String) :
    yearTotal (processObject cfg st ign o).1.folder_stats f =
      yearTotal st.folder_stats f + (if qualifies cfg f o then 1 else 0) := by
  by_cases h1 : pyStartsWith o.key cfg.ignoredPref
  · simp [processObject, qualifies, h1]
  · by_cases h2 : pyEndsWith o.key "/"
    · simp [processObject, qualifies, h1, h2]
    · by_cases h3 : folderOf o.key = f
      · subst h3
        simp only [processObject, Bool.not_eq_true] at h1 h2
        simp only [processObject, h1, h2, Bool.false_eq_true, if_false,
          qualifies, h1, h2, Bool.not_false, Bool.and_self, beq_self_eq_true,
          Bool.and_true, if_true, yearTotal]
        rw [lookupA_updA_self]
        simp only [Option.getD_some]
        rw [natTotal_updA]
      · have hb : (folderOf o.key == f) = false := beq_eq_false_iff_ne.2 h3
        simp only [processObject, Bool.not_eq_true] at h1 h2
        simp only [processObject, h1, h2, Bool.false_eq_true, if_false,
          qualifies, hb, Bool.and_false, if_false, yearTotal]
        rw [lookupA_updA_ne _ _ (fun h => h3 h.symm)]
        omega

theorem yearTotal_runObjs (cfg : ScanConfig) (objs : List S3Obj) :
    ∀ (p : AggState × Nat) (f : String),
      yearTotal (runObjs cfg p objs).1.folder_stats f =
        yearTotal p.1.folder_stats f + countDirect cfg objs f := by
  induction objs with
  | nil => intro p f; simp [runObjs, countDirect]
  | cons o rest ih =>
    intro p f
    show yearTotal (runObjs cfg (processObject cfg p.1 p.2 o) rest).1.folder_stats f = _
    rw [ih (processObject cfg p.1 p.2 o) f, yearTotal_processObject]
    simp only [countDirect, List.countP_cons]
    by_cases hq : qualifies cfg f o = true
    · simp [hq]
      omega
    · simp [hq]

theorem filesCovered_processObject (cfg : ScanConfig) (st : AggState)
    (ign : Nat) (o : S3Obj) (h : filesCovered st) :
    filesCovered (processObject cfg st ign o).1 := by
  by_cases h1 : pyStartsWith o.key cfg.ignoredPref
  · simpa [processObject, h1] using h
  · by_cases h2 : pyEndsWith o.key "/"
    · simp only [processObject, Bool.not_eq_true] at h1 h2 ⊢
      simp only [h1, Bool.false_eq_true, if_false, h2, if_true]
      intro f hf
      rcases h f hf with hr | hk
      · exact Or.inl hr
      · exact Or.inr (mem_setInsert_of_mem hk)
    · simp only [processObject, Bool.not_eq_true] at h1 h2 ⊢
      simp only [h1, h2, Bool.false_eq_true, if_false]
      intro f hf
      rcases (mem_setInsert_iff _ _ _).1 hf with hf | rfl
      · rcases h f hf with hr | hk
        · exact Or.inl hr
        · exact Or.inr (mem_foldl_setInsert_of_mem _ _ _ hk)
      · by_cases hr : "Raiz" ∈ pySplitS (folderOf o.key)
        · exact Or.inl hr
        · refine Or.inr (mem_foldl_setInsert_of_mem_adds _ _ _ ?_)
          have := chainAdds_last_mem (pySplitS (folderOf o.key)) "" hr
            (pySplitS_ne_nil (folderOf o.key))
          rw [joinSlashS_pySplitS] at this
          simpa using this

theorem filesCovered_runObjs (cfg : ScanConfig) (objs : List S3Obj) :
    ∀ p : AggState × Nat, filesCovered p.1 →
      filesCovered (runObjs cfg p objs).1 := by
  induction objs with
  | nil => intro p h; exact h
  | cons o rest ih =>
    intro p h
    exact ih (processObject cfg p.1 p.2 o)
      (filesCovered_processObject cfg p.1 p.2 o h)

/-! ## Lemmas about the status substring test -/

theorem hasSub_eq_false_of_head_notin (a : Char) (tail : List Char) :
    ∀ s : List Char, (∀ c ∈ s, c ≠ a) → hasSub (a :: tail) s = false := by
  intro s
  induction s with
  | nil => intro _; rfl
  | cons c rest ih =>
    intro h
    show (List.isPrefixOf (a :: tail) (c :: rest) ||
      hasSub (a :: tail) rest) = false
    have hca : (a == c) = false :=
      beq_eq_false_iff_ne.2 fun he => h c (List.mem_cons_self c rest) he.symm
    simp only [List.isPrefixOf, hca, Bool.false_and, Bool.false_or]
    exact ih fun x hx => h x (List.mem_cons_of_mem _ hx)

theorem digitChar_ne_S : ∀ d : Nat, d < 10 → Nat.digitChar d ≠ 'S' := by
  decide

theorem toDigitsCore_ne_S :
    ∀ (fuel n : Nat) (ds : List Char), (∀ c ∈ ds, c ≠ 'S') →
      ∀ c ∈ Nat.toDigitsCore 10 fuel n ds, c ≠ 'S' := by
  intro fuel
  induction fuel with
  | zero => intro n ds h c hc; exact h c hc
  | succ fuel ih =>
    intro n ds h c hc
    have hds : ∀ x ∈ Nat.digitChar (n % 10) :: ds, x ≠ 'S' := by
      intro x hx
      rcases List.mem_cons.1 hx with rfl | hx
      · exact digitChar_ne_S _ (Nat.mod_lt _ (by omega))
      · exact h x hx
    simp only [Nat.toDigitsCore] at hc
    by_cases hz : n / 10 = 0
    · rw [if_pos hz] at hc
      exact hds c hc
    · rw [if_neg hz] at hc
      exact ih (n / 10) _ hds c hc

theorem repr_data_ne_S (n : Nat) : ∀ c ∈ (Nat.repr n).data, c ≠ 'S' := by
  intro c hc
  exact toDigitsCore_ne_S (n + 1) n [] (fun x hx => absurd hx
    (List.not_mem_nil x)) c hc

theorem strIn_sucesso_limitStatus (n : Nat) :
    strIn "Sucesso" (limitStatus n) = false := by
  have hchars : ∀ c ∈ (limitStatus n).data, c ≠ 'S' := by
    intro c hc
    rw [limitStatus, String.data_append, String.data_append] at hc
    rcases List.mem_append.1 hc with hc | hc
    · rcases List.mem_append.1 hc with hc | hc
      · have hall : ∀ x ∈ "Interrompido (Limite: ".data, x ≠ 'S' := by
          decide
        exact hall c hc
      · exact repr_data_ne_S n c hc
    · have hall : ∀ x ∈ ")".data, x ≠ 'S' := by decide
      exact hall c hc
  show hasSub "Sucesso".data (limitStatus n).data = false
  exact hasSub_eq_false_of_head_notin 'S' "ucesso".data (limitStatus n).data
    hchars

/-! ## Claims -/

/-- Claim C1 (code bug).  The claim asserts that resuming from every
checkpoint written during a run reproduces the Aggregate Store of an
uninterrupted run bit-for-bit.  The cadence checkpoint of lines 410-411
refutes this: it is written before the current page's objects are
aggregated, yet stores that page's `NextContinuationToken`, so the
resumed run skips the page.  On the namespace `nsC1` the uninterrupted
run counts 3 objects, while the first checkpoint written during that run
(token pointing at page 500, partition index 0) resumes to a run
counting only 2 — the object on page 499 is lost. -/
theorem C1_cadence_checkpoint_divergence :
    (scanRun cfgC1 nsC1 none).final.agg.total_files = 3 ∧
    (scanRun cfgC1 nsC1 none).final.saves.head?.map Checkpoint.token =
      some (some 500) ∧
    ((scanRun cfgC1 nsC1 none).final.saves.map
      (fun cp => (scanRun cfgC1 nsC1 (some cp)).final.agg.total_files)).head?
      = some 2 := by
  refine ⟨?_, ?_, ?_⟩
  · rw [scanRun_C1_uninterrupted]
    decide
  · rw [scanRun_C1_uninterrupted]
    decide
  · rw [scanRun_C1_uninterrupted]
    simp only [List.map_cons, List.head?_cons]
    rw [scanRun_C1_resumed]
    decide

/-- Claim C2, counterexample.  The claim asserts literal membership of
every `files_found_paths` element in `all_known_paths`.  The code stores
found folders without a trailing slash (`os.path.dirname`) but known
paths with one (the chain builder appends `'/'`), so after processing
the single key `"a/x.txt"` the folder `"a"` is a found path while only
`"a/"` is a known path. -/
theorem C2_counterexample :
    "a" ∈ (runObjs cfgPlain (emptyAgg, 0)
      [⟨"a/x.txt", 2020, 0⟩]).1.files_found_paths ∧
    "a" ∉ (runObjs cfgPlain (emptyAgg, 0)
      [⟨"a/x.txt", 2020, 0⟩]).1.all_known_paths := by
  decide

/-- Claim C2 (amended).  For every object stream fed through the scan
loop's per-object step from a fresh state, every member `f` of
`FolderWithFilesSet` (`files_found_paths`) either contains a `"Raiz"`
component (which the chain builder skips — in particular the root
sentinel itself) or is a member of `KnownPathSet` (`all_known_paths`)
in its `'/'`-terminated form `f ++ "/"`.  Since this holds of every
stream, it holds after every individual update. -/
theorem C2_normalized_subset (cfg : ScanConfig) (objs : List S3Obj)
    (f : String)
    (hf : f ∈ (runObjs cfg (emptyAgg, 0) objs).1.files_found_paths) :
    "Raiz" ∈ pySplitS f ∨
      f ++ "/" ∈ (runObjs cfg (emptyAgg, 0) objs).1.all_known_paths :=
  filesCovered_runObjs cfg objs (emptyAgg, 0)
    (fun g hg => absurd hg (List.not_mem_nil g)) f hf

/-- Witness for the amended C2 at the concrete stream
`["a/x.txt"]` and folder `"a"`. -/
theorem C2_witness :
    "Raiz" ∈ pySplitS "a" ∨
      "a" ++ "/" ∈ (runObjs cfgPlain (emptyAgg, 0)
        [⟨"a/x.txt", 2020, 0⟩]).1.all_known_paths :=
  C2_normalized_subset cfgPlain [⟨"a/x.txt", 2020, 0⟩] "a" (by decide)

/-- Claim C3.  For every configuration, every object stream fed through
the scan loop's per-object step from a fresh state and every folder
`f`, the sum of `folder_stats[f]` over all year buckets equals the
number of non-marker, non-excluded objects of the stream whose key lies
directly in folder `f` (dirname equal to `f`, with the `"Raiz"` sentinel
for the root). -/
theorem C3_year_sum (cfg : ScanConfig) (objs : List S3Obj) (f : String) :
    yearTotal (runObjs cfg (emptyAgg, 0) objs).1.folder_stats f =
      countDirect cfg objs f := by
  rw [yearTotal_runObjs]
  simp [yearTotal, emptyAgg, lookupA, natTotal]

/-- Claim C4.  With the excluded prefix configured as `"A/B/"`:
any object whose key starts with `"A/B/"` leaves the whole aggregate
store untouched and only bumps `ignored_files_count` — so it never
appears in any counter or set — and in particular the stream
`["A/B/x.txt", "A/C/y.txt"]` produces exactly the state of processing
the sibling alone, with one ignored object; the sibling is counted
normally in the year counter, folder sets, recent counter and extension
counter. -/
theorem C4_exclusion :
    (∀ (st : AggState) (ign : Nat) (o : S3Obj),
      pyStartsWith o.key "A/B/" = true →
      processObject cfgExcl st ign o = (st, ign + 1)) ∧
    runObjs cfgExcl (emptyAgg, 0) [objExcl, objSib] =
      ((runObjs cfgExcl (emptyAgg, 0) [objSib]).1, 1) ∧
    yearTotal (runObjs cfgExcl (emptyAgg, 0)
      [objExcl, objSib]).1.folder_stats "A/C" = 1 ∧
    "A/C" ∈ (runObjs cfgExcl (emptyAgg, 0)
      [objExcl, objSib]).1.files_found_paths ∧
    "A/C/" ∈ (runObjs cfgExcl (emptyAgg, 0)
      [objExcl, objSib]).1.all_known_paths ∧
    lookupA (runObjs cfgExcl (emptyAgg, 0)
      [objExcl, objSib]).1.recent_files_stats "A/C" = some 1 ∧
    lookupA ((lookupA (runObjs cfgExcl (emptyAgg, 0)
      [objExcl, objSib]).1.extension_stats "A/C").getD []) ".txt" =
      some 1 := by
  refine ⟨?_, by decide⟩
  intro st ign o h
  simp [processObject, cfgExcl, h]

/-- Witness for C4: the excluded object itself is skipped and counted
as ignored. -/
theorem C4_witness :
    processObject cfgExcl emptyAgg 0 objExcl = (emptyAgg, 0 + 1) :=
  C4_exclusion.1 emptyAgg 0 objExcl (by decide)

/-- Claim C5.  With a safety ceiling of 1 request and a namespace
requiring 3 pages, the run terminates with the limit-reached status
after exactly 1 page of objects has been processed (1 object counted,
only 2 requests ever issued, so both the page loop and the partition
loop are short-circuited), and the checkpoint retained after the
report's cleanup decision carries a cursor pointing at the page after
the first (token 1, partition index 0). -/
theorem C5_safety_limit :
    (scanRun cfgC5 nsC5 none).status = "Interrompido (Limite: 1)" ∧
    (scanRun cfgC5 nsC5 none).final.agg.total_files = 1 ∧
    (scanRun cfgC5 nsC5 none).final.requests = 2 ∧
    (scanRun cfgC5 nsC5 none).storeAfterReport.map Checkpoint.token =
      some (some 1) ∧
    (scanRun cfgC5 nsC5 none).storeAfterReport.map Checkpoint.folderIdx =
      some 0 ∧
    (scanRun cfgC5 nsC5 none).final.saves.length = 1 := by
  decide

/-- Claim C6.  `load_checkpoint` never fails fatally: a missing or
unreadable (corrupt) record yields the cold-start result `none`, and a
readable record that lacks the newer `ext_stats` field loads
successfully with the extension counter initialised empty while every
other field is restored (with `recent_stats` and `folder_idx` likewise
defaulted by `.get`). -/
theorem C6_load_robustness :
    (∀ tok : Option Nat, loadCheckpoint .absent tok = none) ∧
    (∀ tok : Option Nat, loadCheckpoint .corrupt tok = none) ∧
    (∀ (r : RawRecord) (tok : Option Nat) s ap fp t,
      r.stats = some s → r.all_paths = some ap → r.file_paths = some fp →
      r.total = some t → r.ext_stats = none →
      loadCheckpoint (.record r) tok =
        some ⟨⟨s, r.recent_stats.getD [], [], ap, fp, t⟩,
          r.folder_idx.getD 0, tok⟩) := by
  refine ⟨fun tok => rfl, fun tok => rfl, ?_⟩
  intro r tok s ap fp t hs hap hfp ht hext
  obtain ⟨rs, rr, rx, ra, rf, rt, ri⟩ := r
  simp only at hs hap hfp ht hext
  subst hs hap hfp ht hext
  rfl

/-- Witness for C6: a concrete old-schema record (no `ext_stats`, no
`recent_stats`, no `folder_idx`) loads with those fields defaulted. -/
theorem C6_witness :
    loadCheckpoint (.record ⟨some [("a", [(2020, 1)])], none, none,
      some ["a/"], some ["a"], some 1, none⟩) (some 5) =
      some ⟨⟨[("a", [(2020, 1)])], [], [], ["a/"], ["a"], 1⟩, 0, some 5⟩ :=
  C6_load_robustness.2.2 _ (some 5) _ _ _ _ rfl rfl rfl rfl rfl

/-- Claim C7, counterexample.  The cleanup at the tail of
`generate_excel_report` deletes the checkpoint whenever the status
message contains `"Sucesso"` as a substring; an error status whose
message happens to contain `"Sucesso"` is not the success status, yet
its checkpoint is deleted — so deletion is not restricted to the
success status, and such a run ends with an incomplete report and a
deleted checkpoint. -/
theorem C7_counterexample :
    statusMsg (.errorMsg "Sem Sucesso na conexão") ≠ statusMsg .success ∧
    cleanupCheckpoint (statusMsg (.errorMsg "Sem Sucesso na conexão"))
      (some cpDemo) = none := by
  decide

/-- Claim C7 (amended).  The terminal checkpoint decision deletes the
stored checkpoint exactly when the status message contains `"Sucesso"`:
always on the success status, never on user cancellation, never on the
limit-reached status for any ceiling value, and on an error status
precisely when the error message itself brings the substring in. -/
theorem C7_cleanup_characterization (cp : Option Checkpoint) (n : Nat)
    (e : String) :
    cleanupCheckpoint (statusMsg .success) cp = none ∧
    cleanupCheckpoint (statusMsg .cancelled) cp = cp ∧
    cleanupCheckpoint (statusMsg (.limitReached n)) cp = cp ∧
    cleanupCheckpoint (statusMsg (.errorMsg e)) cp =
      (if strIn "Sucesso" ("Erro: " ++ e) then none else cp) := by
  refine ⟨?_, ?_, ?_, rfl⟩
  · show (if strIn "Sucesso" (statusMsg .success) then none else cp) = none
    rw [show strIn "Sucesso" (statusMsg .success) = true from by decide]
    rfl
  · show (if strIn "Sucesso" (statusMsg .cancelled) then none else cp) = cp
    rw [show strIn "Sucesso" (statusMsg .cancelled) = false from by decide]
    rfl
  · show (if strIn "Sucesso" (limitStatus n) then none else cp) = cp
    rw [strIn_sucesso_limitStatus n]
    rfl

/-- Claim C8, counterexample.  For a virtual-folder marker key the code
only inserts the key itself into `all_known_paths` (line 430-432) and
skips the ancestor-chain build entirely: after processing the marker
`"a/b/"` alone, the known paths are exactly `["a/b/"]` — the ancestor
`"a/"` is absent (and so is a `'+'`-terminated `"a+"`, under the
claim's literal terminator). -/
theorem C8_counterexample :
    (runObjs cfgPlain (emptyAgg, 0)
      [⟨"a/b/", 2020, 0⟩]).1.all_known_paths = ["a/b/"] ∧
    "a/" ∉ (runObjs cfgPlain (emptyAgg, 0)
      [⟨"a/b/", 2020, 0⟩]).1.all_known_paths ∧
    "a+" ∉ (runObjs cfgPlain (emptyAgg, 0)
      [⟨"a/b/", 2020, 0⟩]).1.all_known_paths := by
  decide

/-- Claim C8 (amended).  For every processed non-marker, non-excluded
object key, every entry of the ancestor chain of its logical folder —
the accumulated left-to-right builds of the folder's slash-split parts,
each `'/'`-terminated (not `'+'`-terminated) — is a member of
`KnownPathSet` after the update; marker keys insert only themselves. -/
theorem C8_ancestor_chain (cfg : ScanConfig) (st : AggState) (ign : Nat)
    (o : S3Obj) (h1 : pyStartsWith o.key cfg.ignoredPref = false)
    (h2 : pyEndsWith o.key "/" = false) :
    ∀ p ∈ chainAdds (pySplitS (folderOf o.key)) "",
      p ∈ (processObject cfg st ign o).1.all_known_paths ∧
        ∃ x, p = x ++ "/" := by
  intro p hp
  constructor
  · simp only [processObject, h1, h2, Bool.false_eq_true, if_false]
    exact mem_foldl_setInsert_of_mem_adds _ _ _ hp
  · exact chainAdds_elem_slash _ "" p hp

/-- Witness for the amended C8: the ancestor `"a/"` of key
`"a/b/x.txt"` lands in the known paths. -/
theorem C8_witness :
    "a/" ∈ (processObject cfgPlain emptyAgg 0
      ⟨"a/b/x.txt", 2020, 0⟩).1.all_known_paths ∧
      ∃ x, ("a/" : String) = x ++ "/" :=
  C8_ancestor_chain cfgPlain emptyAgg 0 ⟨"a/b/x.txt", 2020, 0⟩
    (by decide) (by decide) "a/" (by decide)

/-- Claim C9, counterexample.  The year counter is keyed by the full
dirname of the key, not by its first path segment: after the scenario
stream, `folder_stats` has no entry for `"a"` and `"a"` is not a found
folder (the claim expects `YearCounter = {a: {2021: 2, 2022: 1}}` and
`FolderWithFilesSet = {"a"}`). -/
theorem C9_counterexample :
    lookupA (runObjs cfgPlain (emptyAgg, 0) objs9).1.folder_stats "a" =
      none ∧
    "a" ∉ (runObjs cfgPlain (emptyAgg, 0) objs9).1.files_found_paths := by
  decide

/-- Claim C9 (amended).  The scenario stream
`["a/2021/f1.pdf", "a/2021/f2.pdf", "a/2022/f3.txt", "b/"]` with all
timestamps far older than the cutoff yields
`YearCounter = {"a/2021": {2021: 2}, "a/2022": {2022: 1}}`,
`ExtensionCounter = {"a/2021": {".pdf": 2}, "a/2022": {".txt": 1}}`,
`KnownPathSet = {"a/", "a/2021/", "a/2022/", "b/"}` (the chain runs over
the full dirname, so `"a/2021/"` is present),
`FolderWithFilesSet = {"a/2021", "a/2022"}`, an empty `RecentCounter`,
and 3 counted objects. -/
theorem C9_scenario :
    (runObjs cfgPlain (emptyAgg, 0) objs9).1 =
      ⟨[("a/2021", [(2021, 2)]), ("a/2022", [(2022, 1)])], [],
       [("a/2021", [(".pdf", 2)]), ("a/2022", [(".txt", 1)])],
       ["a/", "a/2021/", "a/2022/", "b/"], ["a/2021", "a/2022"], 3⟩ := by
  decide

/-- Claim C10.  `scan_bucket`'s resume decision tests the truthiness of
the loaded `stats` dict: a checkpoint whose `folder_stats` is empty is
discarded wholesale — every aggregate restarts empty, the partition
index restarts at 0 and the saved token is dropped — while a checkpoint
with a non-empty `folder_stats` is resumed in full. -/
theorem C10_empty_stats_discard (cp : Checkpoint) :
    (cp.agg.folder_stats = [] →
      resumeInit (some cp) = (emptyAgg, none, 0)) ∧
    (cp.agg.folder_stats ≠ [] →
      resumeInit (some cp) = (cp.agg, cp.token, cp.folderIdx)) := by
  constructor
  · intro h
    simp [resumeInit, h]
  · intro h
    simp [resumeInit, h]

/-- Witness for C10: a checkpoint with empty `folder_stats` but
non-empty other fields, a non-zero index and a saved token is fully
discarded. -/
theorem C10_witness :
    resumeInit (some ⟨⟨[], [("x", 3)], [], ["p/"], ["x"], 7⟩, 4, some 9⟩) =
      (emptyAgg, none, 0) :=
  (C10_empty_stats_discard
    ⟨⟨[], [("x", 3)], [], ["p/"], ["x"], 7⟩, 4, some 9⟩).1 rfl

end S3Audit
